import Mathlib

/-!
Shallow embedding of the GUYUEMUZI/quantify repository (AlphaSentinel futures
analysis system), covering:

* the exchange-routing functions `get_exchange_by_symbol` in
  `GuAnalysisSystem/AlphaSentinel/data/data_utils.py` (namespace `DataUtils`)
  and the one effective at runtime in
  `GuAnalysisSystem/AlphaSentinel/dashboard_v6.py` (namespace `Dashboard`;
  the dashboard file defines the function twice and the later definition,
  lines 384-403, shadows the earlier copy at module level);
* the position-ranking fetchers `get_holding_rank_data` of both files,
  with the backward day-walk, weekend skipping, contract selection and
  column normalization made explicit;
* the technical indicator calculators of
  `GuAnalysisSystem/AlphaSentinel/analysis/technical_calc.py`;
* the model registry of `analysis/model_manager.py`;
* the option PCR computations of both `data_utils.py` and `dashboard_v6.py`.

Conventions of the embedding:

* A pandas DataFrame is modelled by its column names and its rows of
  string-rendered cells (`DataFrame` below); the claims under study depend
  only on column names, row counts and, for the dashboard date check, on
  the first cell of a column.
* Calendar days are integers (days since an epoch that falls on a Monday),
  so Python's `date.weekday()` is `Int.emod · 7` with Monday = 0.
  The time of day is a second count since midnight.
* The external exchange endpoint (`rank_api` in the source, already
  specialized to the variety list) is an explicit function parameter
  `api : Int → Except Unit (List (String × DataFrame))`; an `Except.error`
  models a raised exception for that day's request, `Except.ok` the
  returned contract → table dictionary in insertion order.
* Machine floats are modelled by exact rationals (and reals where a square
  root occurs); fallible code returns its error channel explicitly.
-/

/-- A pandas DataFrame: column names plus rows of string-rendered cells. -/
structure DataFrame where
  cols : List String
  rows : List (List String)
deriving DecidableEq, Repr

/-- `pd.DataFrame()`: no columns, no rows. -/
def DataFrame.emptyDF : DataFrame := ⟨[], []⟩

/-- `df.empty` in pandas: true when either axis has length zero. -/
def DataFrame.isEmpty (df : DataFrame) : Bool :=
  df.rows.isEmpty || df.cols.isEmpty

/-- Python `date.weekday() in [5, 6]` (Saturday or Sunday). -/
def isWeekend (d : Int) : Bool :=
  d.emod 7 = 5 || d.emod 7 = 6

/-- Substring test, Python's `pat in s`. -/
def strContains (s pat : String) : Bool :=
  (List.range (s.toList.length + 1)).any
    (fun i => pat.toList.isPrefixOf (s.toList.drop i))

/-- First cell of the column named `c` (models `str(df[col].unique()[0])`,
`unique()` keeps first occurrences in order, so element 0 is the first
value of the column). -/
def DataFrame.firstColVal (df : DataFrame) (c : String) : Option String :=
  match df.cols.findIdx? (· == c) with
  | none => none
  | some idx =>
    match df.rows.head? with
    | none => none
    | some r => r.get? idx

/-- Column selection `df[names]` followed by nothing else: keeps every row,
projecting the cells of the named columns (missing cells become `""`;
the Python code only selects names it has checked, or raises — the raise
is modelled at the call sites). -/
def DataFrame.selectCols (df : DataFrame) (names : List String) : DataFrame :=
  ⟨names,
   df.rows.map (fun r =>
     names.map (fun n =>
       match df.cols.findIdx? (· == n) with
       | none => ""
       | some idx => (r.get? idx).getD ""))⟩

/-- The four normalized column names `['名次', '会员简称', '数值', '增减']`. -/
def stdRankCols : List String := ["名次", "会员简称", "数值", "增减"]

/-- `FUTURE_EXCHANGE_MAP` as written — identically — in both
`data_utils.py` (lines 13-72) and `dashboard_v6.py` (lines 25-85):
lower-case keys for SHFE and DCE varieties, upper-case keys for CZCE and
CFFEX varieties, in source order. -/
def FUTURE_EXCHANGE_MAP : List (String × String) :=
  [("rb", "SHFE"), ("hc", "SHFE"), ("bu", "SHFE"), ("ru", "SHFE"),
   ("br", "SHFE"), ("fu", "SHFE"), ("sp", "SHFE"), ("cu", "SHFE"),
   ("al", "SHFE"), ("ao", "SHFE"), ("pb", "SHFE"), ("zn", "SHFE"),
   ("sn", "SHFE"), ("ni", "SHFE"), ("ss", "SHFE"), ("au", "SHFE"),
   ("ag", "SHFE"), ("wr", "SHFE"),
   ("a", "DCE"), ("b", "DCE"), ("c", "DCE"), ("cs", "DCE"),
   ("m", "DCE"), ("y", "DCE"), ("p", "DCE"), ("i", "DCE"),
   ("j", "DCE"), ("jm", "DCE"), ("l", "DCE"), ("v", "DCE"),
   ("pp", "DCE"), ("eg", "DCE"), ("rr", "DCE"), ("eb", "DCE"),
   ("TA", "CZCE"), ("MA", "CZCE"), ("RM", "CZCE"), ("RS", "CZCE"),
   ("OI", "CZCE"), ("SR", "CZCE"), ("CF", "CZCE"), ("ZC", "CZCE"),
   ("FG", "CZCE"), ("LR", "CZCE"), ("RI", "CZCE"), ("WH", "CZCE"),
   ("JR", "CZCE"), ("TC", "CZCE"),
   ("IF", "CFFEX"), ("IH", "CFFEX"), ("IC", "CFFEX"),
   ("TF", "CFFEX"), ("T", "CFFEX"), ("TS", "CFFEX")]

/-- `symbol[:i].upper()` where `i` is the index of the first digit
(`symbol.upper()` when no digit occurs): the characters before the first
digit, upper-cased. -/
def productCode (symbol : String) : String :=
  ⟨(symbol.toList.takeWhile (fun ch => !ch.isDigit)).map Char.toUpper⟩

namespace DataUtils

/-- `data_utils.get_exchange_by_symbol` (lines 75-116): strips the digits,
upper-cases, then tries the full product code, its first two characters
(only when it has at least two), and its first character against
`FUTURE_EXCHANGE_MAP`, returning `None` when nothing matches.  The
`try/except` wrapper cannot fire on these operations and is dropped. -/
def get_exchange_by_symbol (symbol : String) : Option String :=
  match List.lookup (productCode symbol) FUTURE_EXCHANGE_MAP with
  | some ex => some ex
  | none =>
    match (if 2 ≤ (productCode symbol).length
           then List.lookup (⟨(productCode symbol).toList.take 2⟩ : String)
                  FUTURE_EXCHANGE_MAP
           else none) with
    | some ex => some ex
    | none =>
      match List.lookup (⟨(productCode symbol).toList.take 1⟩ : String)
          FUTURE_EXCHANGE_MAP with
      | some ex => some ex
      | none => none

end DataUtils

namespace Dashboard

/-- The `get_exchange_by_symbol` that is effective at runtime in
`dashboard_v6.py` (lines 384-403; it shadows the earlier identical copy of
the data_utils router defined at lines 92-137 of the same file): for
lengths 2 then 1, lower-case the first characters of the raw symbol and
look them up; fall back to `'SHFE'` when nothing matches. -/
def get_exchange_by_symbol (symbol : String) : String :=
  match (if 2 ≤ symbol.length
         then List.lookup (⟨(symbol.toList.take 2).map Char.toLower⟩ : String)
                FUTURE_EXCHANGE_MAP
         else none) with
  | some ex => ex
  | none =>
    match (if 1 ≤ symbol.length
           then List.lookup (⟨(symbol.toList.take 1).map Char.toLower⟩ : String)
                  FUTURE_EXCHANGE_MAP
           else none) with
    | some ex => ex
    | none => "SHFE"

end Dashboard

/-- Modelled from the spec (§4.1): "Input: raw symbol string. Output:
exchange tag, or `unrecognized` if no prefix (full code, 2-letter,
1-letter, in that priority order) matches the static table."  The letter
prefix is the digit-stripped, upper-cased product code, as in the data
layer. -/
def specRoute (symbol : String) : Option String :=
  match List.lookup (productCode symbol) FUTURE_EXCHANGE_MAP with
  | some ex => some ex
  | none =>
    match List.lookup (⟨(productCode symbol).toList.take 2⟩ : String)
        FUTURE_EXCHANGE_MAP with
    | some ex => some ex
    | none =>
      List.lookup (⟨(productCode symbol).toList.take 1⟩ : String) FUTURE_EXCHANGE_MAP

/-- `target_date.strftime('%Y%m%d')`: the string rendering of a model day,
used only where the dashboard compares it against table cells. -/
def dayStr (d : Int) : String := toString d

/-- The backward day-walk shared by both `get_holding_rank_data`
implementations, parameterized by the per-day contract-selection logic
`select` (which sees the candidate day and the contract dictionary of a
non-empty response).  Walking an offset list, a weekend day is skipped
without a query; otherwise the endpoint is queried: a raised exception or
an empty dictionary means "try the previous day", a `some` from `select`
stops the walk.  Returns the walk outcome together with the list of

queried (non-weekend) days. -/
def walkAux (select : Int → List (String × DataFrame) → Option DataFrame)
    (api : Int → Except Unit (List (String × DataFrame))) (c : Int) :
    List Nat → Option (DataFrame × Int) × List Int
  | [] => (none, [])
  | o :: rest =>
    let d := c - (o : Int)
    if isWeekend d then walkAux select api c rest
    else
      match api d with
      | .error _ =>
        let r := walkAux select api c rest
        (r.1, d :: r.2)
      | .ok dict =>
        if dict = [] then
          let r := walkAux select api c rest
          (r.1, d :: r.2)
        else
          match select d dict with
          | some df => (some (df, d), [d])
          | none =>
            let r := walkAux select api c rest
            (r.1, d :: r.2)

/-- Shared tail of both normalizations: select the four raw columns,
rename them to `stdRankCols`, keep the top 20 rows (`head(20)`), and
return a success triple. -/
def finishRank (df : DataFrame) (sel : List String) (d : Int) :
    DataFrame × Option Int × Option String :=
  (⟨stdRankCols, (df.selectCols sel).rows.take 20⟩, some d, none)

namespace DataUtils

/-- Contract selection of `data_utils.get_holding_rank_data`
(lines 205-221): on a non-empty response, prefer the exact symbol (the
loop breaks even when that table is empty); otherwise take the first
available contract. -/
def duSelect (symbol : String) (_d : Int)
    (dict : List (String × DataFrame)) : Option DataFrame :=
  match List.lookup symbol dict with
  | some df => some df
  | none => (dict.head?).map (·.2)

/-- Column normalization of `data_utils.get_holding_rank_data`
(lines 232-259): per requested data type, check the two signature columns;
if present, the four-column selection itself still raises `KeyError`
(caught by the outer handler) when `rank` or the change column is absent. -/
def normalizeRank (df : DataFrame) (d : Int) (dataType : String) :
    DataFrame × Option Int × Option String :=
  if dataType = "成交量排名" ∨ dataType = "成交量" then
    if "vol_party_name" ∈ df.cols ∧ "vol" ∈ df.cols then
      if "rank" ∈ df.cols ∧ "vol_chg" ∈ df.cols then
        finishRank df ["rank", "vol_party_name", "vol", "vol_chg"] d
      else (DataFrame.emptyDF, none, some "获取持仓排名数据失败: KeyError")
    else (DataFrame.emptyDF, none, some "数据中缺少成交量相关列")
  else if dataType = "多单持仓" then
    if "long_party_name" ∈ df.cols ∧ "long_open_interest" ∈ df.cols then
      if "rank" ∈ df.cols ∧ "long_open_interest_chg" ∈ df.cols then
        finishRank df ["rank", "long_party_name", "long_open_interest",
          "long_open_interest_chg"] d
      else (DataFrame.emptyDF, none, some "获取持仓排名数据失败: KeyError")
    else (DataFrame.emptyDF, none, some "数据中缺少多单持仓相关列")
  else if dataType = "空单持仓" then
    if "short_party_name" ∈ df.cols ∧ "short_open_interest" ∈ df.cols then
      if "rank" ∈ df.cols ∧ "short_open_interest_chg" ∈ df.cols then
        finishRank df ["rank", "short_party_name", "short_open_interest",
          "short_open_interest_chg"] d
      else (DataFrame.emptyDF, none, some "获取持仓排名数据失败: KeyError")
    else (DataFrame.emptyDF, none, some "数据中缺少空单持仓相关列")
  else (DataFrame.emptyDF, none, some "无效的数据类型")

/-- `data_utils.get_holding_rank_data` (lines 119-264).  `api` is the
exchange endpoint already specialized to the variety list; `c` is today's
date and `t` the current second of the day — `datetime.now()` carries the
time, but this implementation never consults it and always walks offsets
`range(30)` starting at today.  Returns the `(data_df, data_date,
error_msg)` triple together with the days actually queried. -/
def get_holding_rank_data (api : Int → Except Unit (List (String × DataFrame)))
    (symbol dataType : String) (c : Int) (t : Nat) :
    (DataFrame × Option Int × Option String) × List Int :=
  match get_exchange_by_symbol symbol with
  | some ex =>
    if ex = "SHFE" ∨ ex = "DCE" ∨ ex = "CZCE" ∨ ex = "CFFEX" ∨ ex = "GFEX" then
      match (walkAux (duSelect symbol) api c (List.range 30)).1 with
      | none =>
        ((DataFrame.emptyDF, none,
          some ("未获取到" ++ symbol ++ "的持仓排名数据")),
         (walkAux (duSelect symbol) api c (List.range 30)).2)
      | some (df, d) =>
        if df.isEmpty then
          ((DataFrame.emptyDF, none,
            some ("未获取到" ++ symbol ++ "的持仓排名数据")),
           (walkAux (duSelect symbol) api c (List.range 30)).2)
        else (normalizeRank df d dataType,
              (walkAux (duSelect symbol) api c (List.range 30)).2)
    else ((DataFrame.emptyDF, none, some ("不支持的交易所: " ++ ex)), [])
  | none => ((DataFrame.emptyDF, none, some "不支持的交易所: None"), [])

end DataUtils

namespace Dashboard

/-- Python `str.lower()`, character by character. -/
def lowerStr (s : String) : String := ⟨s.toList.map Char.toLower⟩

/-- `any('date' in col.lower() for col in df.columns)`. -/
def anyDateCol (df : DataFrame) : Bool :=
  df.cols.any (fun cName => strContains (lowerStr cName) "date")

/-- The dashboard's per-day date-validity check (dashboard_v6.py lines
244-258): some column whose lowered name contains `date` (or `datetime`)
has a first distinct value containing the requested date string. -/
def dateFieldFound (df : DataFrame) (target : String) : Bool :=
  df.cols.any (fun cName =>
    (strContains (lowerStr cName) "date" || strContains (lowerStr cName) "datetime") &&
    (match df.firstColVal cName with
     | some v => strContains v target
     | none => false))

/-- Contract selection of the dashboard `get_holding_rank_data`
(lines 239-291): the exact symbol's table is accepted only when non-empty,
with at least 5 rows, and passing the date-field check; otherwise the
first alternative contract that is non-empty with at least 5 rows is
accepted (with no date check). -/
def dashSelect (symbol : String) (d : Int)
    (dict : List (String × DataFrame)) : Option DataFrame :=
  match List.lookup symbol dict with
  | some df =>
    if !df.isEmpty && decide (5 ≤ df.rows.length) &&
        (dateFieldFound df (dayStr d) || !anyDateCol df)
    then some df else none
  | none =>
    (dict.find? (fun kv => !kv.2.isEmpty && decide (5 ≤ kv.2.rows.length))).map (·.2)

/-- Fallback column matching of the dashboard normalization: the first
candidate column set entirely present in the table is selected, else the
given data-shape error is returned. -/
def tryColumnSets (df : DataFrame) (d : Int) (sets : List (List String))
    (errMsg : String) : DataFrame × Option Int × Option String :=
  match sets.find? (fun cs => cs.all (fun n => df.cols.contains n)) with
  | some cs => finishRank df cs d
  | none => (DataFrame.emptyDF, none, some errMsg)

/-- Column normalization of the dashboard `get_holding_rank_data`
(lines 311-378): like the data_utils one, but with alternative
column-name sets tried when the signature columns are missing. -/
def dashNormalizeRank (df : DataFrame) (d : Int) (dataType : String) :
    DataFrame × Option Int × Option String :=
  if dataType = "成交量排名" ∨ dataType = "成交量" then
    if "vol_party_name" ∈ df.cols ∧ "vol" ∈ df.cols then
      if "rank" ∈ df.cols ∧ "vol_chg" ∈ df.cols then
        finishRank df ["rank", "vol_party_name", "vol", "vol_chg"] d
      else (DataFrame.emptyDF, none, some "获取持仓排名数据失败: KeyError")
    else
      tryColumnSets df d
        [["rank", "volume_member", "volume", "volume_change"],
         ["rank", "member", "volume", "change"],
         ["名次", "会员简称", "成交量", "增减"]] "数据中缺少成交量相关列"
  else if dataType = "多单持仓" then
    if "long_party_name" ∈ df.cols ∧ "long_open_interest" ∈ df.cols then
      if "rank" ∈ df.cols ∧ "long_open_interest_chg" ∈ df.cols then
        finishRank df ["rank", "long_party_name", "long_open_interest",
          "long_open_interest_chg"] d
      else (DataFrame.emptyDF, none, some "获取持仓排名数据失败: KeyError")
    else
      tryColumnSets df d
        [["rank", "long_member", "long_position", "long_position_change"],
         ["rank", "member", "long", "long_change"],
         ["名次", "会员简称", "多单持仓", "增减"]] "数据中缺少多单持仓相关列"
  else if dataType = "空单持仓" then
    if "short_party_name" ∈ df.cols ∧ "short_open_interest" ∈ df.cols then
      if "rank" ∈ df.cols ∧ "short_open_interest_chg" ∈ df.cols then
        finishRank df ["rank", "short_party_name", "short_open_interest",
          "short_open_interest_chg"] d
      else (DataFrame.emptyDF, none, some "获取持仓排名数据失败: KeyError")
    else
      tryColumnSets df d
        [["rank", "short_member", "short_position", "short_position_change"],
         ["rank", "member", "short", "short_change"],
         ["名次", "会员简称", "空单持仓", "增减"]] "数据中缺少空单持仓相关列"
  else (DataFrame.emptyDF, none, some "无效的数据类型")

/-- The publication cutoff 16:30 as a second of the day. -/
def cutoffSec : Nat := 59400

/-- `start_day = 1 if now < update_time else 0` (dashboard_v6.py line
211): skip today before the 16:30 publication cutoff. -/
def startDay (t : Nat) : Nat := if t < cutoffSec then 1 else 0

/-- The dashboard `get_holding_rank_data` (dashboard_v6.py lines 140-381).
`c` is today's date and `t` the current second of the day; the walk
covers `range(start_day, 30)`. -/
def get_holding_rank_data (api : Int → Except Unit (List (String × DataFrame)))
    (symbol dataType : String) (c : Int) (t : Nat) :
    (DataFrame × Option Int × Option String) × List Int :=
  if get_exchange_by_symbol symbol = "SHFE" ∨ get_exchange_by_symbol symbol = "DCE"
      ∨ get_exchange_by_symbol symbol = "CZCE" ∨ get_exchange_by_symbol symbol = "CFFEX"
      ∨ get_exchange_by_symbol symbol = "GFEX" then
    match (walkAux (dashSelect symbol) api c
        (List.range' (startDay t) (30 - startDay t))).1 with
    | none =>
      ((DataFrame.emptyDF, none,
        some ("未获取到" ++ symbol ++ "的持仓排名数据")),
       (walkAux (dashSelect symbol) api c
         (List.range' (startDay t) (30 - startDay t))).2)
    | some (df, d) =>
      if df.isEmpty then
        ((DataFrame.emptyDF, none,
          some ("未获取到" ++ symbol ++ "的持仓排名数据")),
         (walkAux (dashSelect symbol) api c
           (List.range' (startDay t) (30 - startDay t))).2)
      else (dashNormalizeRank df d dataType,
            (walkAux (dashSelect symbol) api c
              (List.range' (startDay t) (30 - startDay t))).2)
  else ((DataFrame.emptyDF, none,
         some ("不支持的交易所: " ++ get_exchange_by_symbol symbol)), [])

end Dashboard

/-- An OHLCV bar (one row of the bar-series DataFrame).  The Python column
named `open` is `openPrice` here (`open` is reserved in Lean). -/
structure Bar where
  openPrice : ℚ
  high : ℚ
  low : ℚ
  close : ℚ
  volume : ℚ
deriving DecidableEq, Repr

namespace TechnicalCalculator

/-- Sum of the rolling window of width `w` ending at index `i`
(only used under `w ≤ i + 1`, so the indices `i - j` never clamp). -/
def winSum (xs : List ℚ) (w i : ℕ) : ℚ :=
  ((List.range w).map (fun j => xs.getD (i - j) 0)).sum

/-- `series.rolling(window=w).mean()` at row `i`: defined exactly when the
window is full (`min_periods` defaults to the window) and the row exists. -/
def rollAt (w : ℕ) (xs : List ℚ) (i : ℕ) : Option ℚ :=
  if 1 ≤ w ∧ w ≤ i + 1 ∧ i < xs.length then some (winSum xs w i / w) else none

/-- The whole rolling-mean column. -/
def rollCol (w : ℕ) (xs : List ℚ) : List (Option ℚ) :=
  (List.range xs.length).map (rollAt w xs)

/-- `calculate_ma` (technical_calc.py lines 16-31): a rolling mean of the
chosen price column.  The `try/except` re-raises, so the only error
channel is a raised exception, which never fires on a well-formed series
(missing-column access is outside this embedding's input type). -/
def calculate_ma (xs : List ℚ) (w : ℕ) : Except String (List (Option ℚ)) :=
  .ok (rollCol w xs)

/-- The true-range column of `calculate_atr` (lines 42-46): `tr1` is
`high - low`, `tr2`/`tr3` use the previous close and are NaN on row 0;
`max(axis=1)` skips NaN, so row 0 falls back to `tr1`. -/
def trList (bars : List Bar) : List ℚ :=
  (List.range bars.length).map (fun i =>
    match bars.get? i with
    | none => 0
    | some b =>
      let tr1 := b.high - b.low
      match (if i = 0 then none else bars.get? (i - 1)) with
      | none => tr1
      | some prev => max tr1 (max |b.high - prev.close| |b.low - prev.close|))

/-- `calculate_atr` (lines 33-57): rolling mean of the true range. -/
def calculate_atr (bars : List Bar) (w : ℕ) : Except String (List (Option ℚ)) :=
  .ok (rollCol w (trList bars))

/-- Tail of an `ewm(span=…, adjust=False).mean()` recurrence: carries the
previous smoothed value. -/
def emaAux (a : ℚ) : ℚ → List ℚ → List ℚ
  | _, [] => []
  | prev, x :: rest =>
    let e := a * x + (1 - a) * prev
    e :: emaAux a e rest

/-- `series.ewm(span=s, adjust=False).mean()`: first value is the series
head, then the standard recurrence with `alpha = 2 / (s + 1)`. -/
def emaList (s : ℕ) : List ℚ → List ℚ
  | [] => []
  | x :: rest => x :: emaAux (2 / ((s : ℚ) + 1)) x rest

/-- `calculate_macd` (lines 59-88): fast and slow EMA difference, its
signal EMA, and their difference, in that order. -/
def calculate_macd (xs : List ℚ) (fast slow signalSpan : ℕ) :
    Except String (List ℚ × List ℚ × List ℚ) :=
  let line := List.zipWith (· - ·) (emaList fast xs) (emaList slow xs)
  let sig := emaList signalSpan line
  .ok (line, sig, List.zipWith (· - ·) line sig)

/-- `delta.where(delta > 0, 0)`: the gain series.  Row 0's NaN delta fails
the `delta > 0` test and is replaced by 0, so the series is total. -/
def gainList : List ℚ → List ℚ
  | [] => []
  | x :: rest => 0 :: List.zipWith (fun prev cur => max (cur - prev) 0) (x :: rest) rest

/-- `-delta.where(delta < 0, 0)`: the loss series, total for the same
reason. -/
def lossList : List ℚ → List ℚ
  | [] => []
  | x :: rest => 0 :: List.zipWith (fun prev cur => max (prev - cur) 0) (x :: rest) rest

/-- One row of `calculate_rsi` (lines 90-116), with float conventions made
explicit: when the average loss is 0, `gain / loss` is `inf` (RSI 100) for
a positive gain and NaN (undefined) when the gain is 0 too. -/
def rsiAt (xs : List ℚ) (w i : ℕ) : Option ℚ :=
  match rollAt w (gainList xs) i, rollAt w (lossList xs) i with
  | some gv, some lv =>
    if lv = 0 then (if gv = 0 then none else some 100)
    else some (100 - 100 / (1 + gv / lv))
  | _, _ => none

/-- `calculate_rsi`: the whole derived column. -/
def calculate_rsi (xs : List ℚ) (w : ℕ) : Except String (List (Option ℚ)) :=
  .ok ((List.range xs.length).map (rsiAt xs w))

/-- `series.rolling(window=w).std()` squared: the sample variance
(`ddof = 1`), NaN when the window is not full or `w = 1` (0/0). -/
def varAt (w : ℕ) (xs : List ℚ) (i : ℕ) : Option ℚ :=
  if 2 ≤ w ∧ w ≤ i + 1 ∧ i < xs.length then
    some ((((List.range w).map
      (fun j => (xs.getD (i - j) 0 - winSum xs w i / w) ^ 2)).sum) / ((w : ℚ) - 1))
  else none

/-- Upper Bollinger band at row `i` (lines 131-137):
`mid + std * num_std`. -/
noncomputable def bbUpperAt (xs : List ℚ) (w : ℕ) (k : ℝ) (i : ℕ) : Option ℝ :=
  match rollAt w xs i, varAt w xs i with
  | some m, some v => some ((m : ℝ) + Real.sqrt (v : ℝ) * k)
  | _, _ => none

/-- Lower Bollinger band at row `i`: `mid - std * num_std`. -/
noncomputable def bbLowerAt (xs : List ℚ) (w : ℕ) (k : ℝ) (i : ℕ) : Option ℝ :=
  match rollAt w xs i, varAt w xs i with
  | some m, some v => some ((m : ℝ) - Real.sqrt (v : ℝ) * k)
  | _, _ => none

/-- `calculate_bollinger_bands` (lines 118-143): the mid, upper and lower
columns. -/
noncomputable def calculate_bollinger_bands (xs : List ℚ) (w : ℕ) (k : ℝ) :
    Except String (List (Option ℚ) × List (Option ℝ) × List (Option ℝ)) :=
  .ok (rollCol w xs,
       (List.range xs.length).map (bbUpperAt xs w k),
       (List.range xs.length).map (bbLowerAt xs w k))

/-- `calculate_volume_ma` (lines 145-160). -/
def calculate_volume_ma (xs : List ℚ) (w : ℕ) : Except String (List (Option ℚ)) :=
  .ok (rollCol w xs)

/-- The columns added by `calculate_all`. -/
structure AllCols where
  ma20 : List (Option ℚ)
  ma50 : List (Option ℚ)
  ma200 : List (Option ℚ)
  atr : List (Option ℚ)
  macd_line : List ℚ
  macd_signal : List ℚ
  macd_hist : List ℚ
  rsi : List (Option ℚ)
  bb_mid : List (Option ℚ)
  bb_upper : List (Option ℝ)
  bb_lower : List (Option ℝ)
  vol_ma20 : List (Option ℚ)

/-- `calculate_all` (lines 162-180): every calculator at its default
window over the close (resp. volume) column of the bar series. -/
noncomputable def calculate_all (bars : List Bar) : Except String AllCols := do
  let closes := bars.map (·.close)
  let m20 ← calculate_ma closes 20
  let m50 ← calculate_ma closes 50
  let m200 ← calculate_ma closes 200
  let a ← calculate_atr bars 14
  let mac ← calculate_macd closes 12 26 9
  let r ← calculate_rsi closes 14
  let bb ← calculate_bollinger_bands closes 20 2
  let vm ← calculate_volume_ma (bars.map (·.volume)) 20
  pure ⟨m20, m50, m200, a, mac.1, mac.2.1, mac.2.2, r, bb.1, bb.2.1, bb.2.2, vm⟩

/-- Python's banker's rounding (`round` ties to even) on an exact
rational. -/
def roundHalfEven (q : ℚ) : ℤ :=
  let f := ⌊q⌋
  let r := q - f
  if r < 1 / 2 then f
  else if 1 / 2 < r then f + 1
  else if f % 2 = 0 then f else f + 1

/-- `round(x, 2)` on exact rationals. -/
def pyRound2 (q : ℚ) : ℚ := (roundHalfEven (q * 100) : ℚ) / 100

/-- `calculate_position_size` (lines 182-205): the risk budget divided by
the per-contract risk, rounded to two decimals, floored at 0.01 by
`max(0.01, …)`. -/
def calculate_position_size
    (total_capital risk_per_trade atr contract_multiplier : ℚ) : ℚ :=
  let risk_per_contract := atr * contract_multiplier
  let total_risk := total_capital * risk_per_trade
  let position_size := total_risk / risk_per_contract
  max (1 / 100) (pyRound2 position_size)

end TechnicalCalculator

/-- `AIModel` of `analysis/model_manager.py` (lines 11-21). -/
structure AIModel where
  id : String
  name : String
  provider : String
  model_name : String
  api_key : String
  base_url : Option String := none
  description : Option String := none
  is_active : Bool := false
deriving DecidableEq, Repr

namespace ModelManager

/-- Number of stored models whose `is_active` flag is set. -/
def countActive (st : List AIModel) : ℕ :=
  (st.filter (fun m => m.is_active)).length

/-- The registry invariant under study: at most one active model. -/
def atMostOneActive (st : List AIModel) : Prop := countActive st ≤ 1

/-- The dict-backed registry never stores two models with the same id. -/
def idsNodup (st : List AIModel) : Prop := (st.map (·.id)).Nodup

/-- `add_model` (lines 115-133) on the stored model list: refuse duplicate
ids; the very first model is forced active; otherwise the model is stored
exactly as passed in (its `is_active` flag included). -/
def add_model (st : List AIModel) (m : AIModel) : List AIModel :=
  if (st.map (·.id)).contains m.id then st
  else if st = [] then [{ m with is_active := true }]
  else st ++ [m]

/-- `update_model` (lines 135-158): absent ids are refused; the stored id
is kept; when the update is active every other model is deactivated
first. -/
def update_model (st : List AIModel) (model_id : String) (updated : AIModel) :
    List AIModel :=
  if (st.map (·.id)).contains model_id then
    let u := { updated with id := model_id }
    if u.is_active then
      st.map (fun x =>
        if x.id = model_id then u else { x with is_active := false })
    else
      st.map (fun x => if x.id = model_id then u else x)
  else st

/-- `delete_model` (lines 160-182): absent ids are refused; when the
deleted model was active and the registry holds more than one model, the
first stored model is re-activated unless it is the one being deleted;
then the entry is removed. -/
def delete_model (st : List AIModel) (model_id : String) : List AIModel :=
  if (st.map (·.id)).contains model_id then
    let wasActive := ((st.find? (fun x => x.id == model_id)).map (·.is_active)).getD false
    let st' :=
      if wasActive ∧ 1 < st.length then
        match st with
        | [] => []
        | x :: xs => if x.id = model_id then x :: xs else { x with is_active := true } :: xs
      else st
    st'.filter (fun x => !(x.id == model_id))
  else st

/-- `set_active_model` (lines 184-204): absent ids are refused; every flag
is cleared and the selected model's flag set. -/
def set_active_model (st : List AIModel) (model_id : String) : List AIModel :=
  if (st.map (·.id)).contains model_id then
    st.map (fun x =>
      if x.id = model_id then { x with is_active := true }
      else { x with is_active := false })
  else st

/-- One registry call. -/
inductive Op where
  | add (m : AIModel)
  | update (model_id : String) (updated : AIModel)
  | del (model_id : String)
  | setActive (model_id : String)

/-- Interpreting a call against the stored list. -/
def applyOp (st : List AIModel) : Op → List AIModel
  | .add m => add_model st m
  | .update mid u => update_model st mid u
  | .del mid => delete_model st mid
  | .setActive mid => set_active_model st mid

/-- The restriction under which the invariant survives `add_model`:
models handed to `add` carry a cleared flag (as the management UI always
does, `ui/model_management.py` line 114). -/
def addsInactive : Op → Prop
  | .add m => m.is_active = false
  | _ => True

end ModelManager

/-- One row of the Sina commodity-option T-quote table, restricted to the
four volume columns both PCR computations read: `看涨合约-买量`,
`看涨合约-卖量`, `看跌合约-买量`, `看跌合约-卖量`. -/
structure OptionRow where
  callBuy : ℚ
  callSell : ℚ
  putBuy : ℚ
  putSell : ℚ
deriving DecidableEq, Repr

/-- `(看涨合约-买量 + 看涨合约-卖量).sum()`. -/
def callVolume (rows : List OptionRow) : ℚ :=
  (rows.map (fun r => r.callBuy + r.callSell)).sum

/-- `(看跌合约-买量 + 看跌合约-卖量).sum()`. -/
def putVolume (rows : List OptionRow) : ℚ :=
  (rows.map (fun r => r.putBuy + r.putSell)).sum

namespace DataUtils

/-- The ratio step of `data_utils.get_option_pcr` (lines 383-398): zero
put volume short-circuits to 0, else the ratio is `call / put`. -/
def get_option_pcr (rows : List OptionRow) : ℚ × String :=
  if putVolume rows = 0 then (0, "options")
  else (callVolume rows / putVolume rows, "options")

end DataUtils

namespace Dashboard

/-- The ratio step of the dashboard `get_option_pcr` (lines 822-833):
`put / call` when the call volume is positive, else 1.0. -/
def get_option_pcr (rows : List OptionRow) : ℚ × String :=
  if 0 < callVolume rows then (putVolume rows / callVolume rows, "options")
  else (1, "options")

end Dashboard

/-- Modelled from the spec's glossary: "PCR: Put/Call Ratio". -/
def pcrGlossary (rows : List OptionRow) : ℚ :=
  putVolume rows / callVolume rows

/-! ## Claim theorems -/

/-- C10: for all positive inputs (total capital, per-trade risk fraction,
ATR, contract multiplier), `calculate_position_size` returns at least
0.01 — it never recommends a zero position; moreover at the concrete
positive input (1, 1/1000, 100, 1) the risk budget divided by the
per-contract risk is below 0.01 while the function still returns 0.01, so
the returned size can exceed the stated risk limit. -/
theorem c10_position_size_floor :
    (∀ total_capital risk_per_trade atr contract_multiplier : ℚ,
      0 < total_capital → 0 < risk_per_trade → 0 < atr → 0 < contract_multiplier →
      1 / 100 ≤ TechnicalCalculator.calculate_position_size
        total_capital risk_per_trade atr contract_multiplier)
    ∧ TechnicalCalculator.calculate_position_size 1 (1 / 1000) 100 1 = 1 / 100
    ∧ 1 * (1 / 1000) / (100 * 1) < (1 / 100 : ℚ) := by
  refine ⟨fun c r a m _ _ _ _ => le_max_left _ _, ?_, by norm_num⟩
  norm_num [TechnicalCalculator.calculate_position_size, TechnicalCalculator.pyRound2,
    TechnicalCalculator.roundHalfEven]

/-- Witness for C10: the floor bound applied at the concrete positive
input (1, 1/1000, 100, 1). -/
theorem c10_position_size_floor_witness :
    1 / 100 ≤ TechnicalCalculator.calculate_position_size 1 (1 / 1000) 100 1 :=
  c10_position_size_floor.1 1 (1 / 1000) 100 1 (by norm_num) (by norm_num)
    (by norm_num) (by norm_num)

/-- C9: on every option snapshot with positive total call volume and
positive total put volume, `data_utils.get_option_pcr` computes
call / put while the dashboard implementation computes put / call — the
reciprocal — and only the dashboard one matches the glossary definition
of PCR as a put/call ratio. -/
theorem c9_pcr_opposite_directions :
    ∀ rows : List OptionRow, 0 < callVolume rows → 0 < putVolume rows →
      DataUtils.get_option_pcr rows = (callVolume rows / putVolume rows, "options")
      ∧ Dashboard.get_option_pcr rows = (putVolume rows / callVolume rows, "options")
      ∧ (Dashboard.get_option_pcr rows).1 = pcrGlossary rows
      ∧ (DataUtils.get_option_pcr rows).1 * (Dashboard.get_option_pcr rows).1 = 1 := by
  intro rows hc hp
  unfold DataUtils.get_option_pcr Dashboard.get_option_pcr pcrGlossary
  rw [if_neg (ne_of_gt hp), if_pos hc]
  refine ⟨rfl, rfl, rfl, ?_⟩
  field_simp

/-- Witness for C9: the direction theorem applied at a one-row snapshot
with call volume 2 and put volume 4. -/
theorem c9_pcr_opposite_directions_witness :
    DataUtils.get_option_pcr [⟨1, 1, 2, 2⟩] =
      (callVolume [⟨1, 1, 2, 2⟩] / putVolume [⟨1, 1, 2, 2⟩], "options")
    ∧ Dashboard.get_option_pcr [⟨1, 1, 2, 2⟩] =
      (putVolume [⟨1, 1, 2, 2⟩] / callVolume [⟨1, 1, 2, 2⟩], "options")
    ∧ (Dashboard.get_option_pcr [⟨1, 1, 2, 2⟩]).1 = pcrGlossary [⟨1, 1, 2, 2⟩]
    ∧ (DataUtils.get_option_pcr [⟨1, 1, 2, 2⟩]).1 *
        (Dashboard.get_option_pcr [⟨1, 1, 2, 2⟩]).1 = 1 :=
  c9_pcr_opposite_directions [⟨1, 1, 2, 2⟩]
    (by norm_num [callVolume]) (by norm_num [putVolume])

/-- Counterexample to C5 as stated: the claim quantifies over both
implementations, but the dashboard router resolves the unmatched symbol
"xyz123" to "SHFE" instead of an unrecognized result (the spec-side
routing, full code then two letters then one letter, matches nothing). -/
theorem c5_counterexample :
    Dashboard.get_exchange_by_symbol "xyz123" = "SHFE"
    ∧ specRoute "xyz123" = none := by decide

/-- C5 amended: the data_utils router agrees everywhere with the
spec-described priority routing (full digit-stripped upper-cased code,
then its first two letters, then its first letter, unrecognized when
nothing matches); the dashboard router instead consults only the first
two / first one lower-cased characters of the raw symbol and falls back
to "SHFE" — in particular it maps "xyz123", which matches no prefix, to
"SHFE". -/
theorem c5_amended_routing :
    (∀ s, DataUtils.get_exchange_by_symbol s = specRoute s)
    ∧ Dashboard.get_exchange_by_symbol "xyz123" = "SHFE"
    ∧ specRoute "xyz123" = none := by
  refine ⟨?_, by decide, by decide⟩
  intro s
  unfold DataUtils.get_exchange_by_symbol specRoute
  cases h1 : List.lookup (productCode s) FUTURE_EXCHANGE_MAP with
  | some ex => rfl
  | none =>
    by_cases h2 : 2 ≤ (productCode s).length
    · rw [if_pos h2]
      cases h3 : List.lookup (⟨(productCode s).toList.take 2⟩ : String)
          FUTURE_EXCHANGE_MAP with
      | some ex => rfl
      | none =>
        cases List.lookup (⟨(productCode s).toList.take 1⟩ : String)
            FUTURE_EXCHANGE_MAP <;> rfl
    · rw [if_neg h2]
      have hlen : (productCode s).toList.length ≤ 2 := by
        have h : (productCode s).length = (productCode s).toList.length := rfl
        omega
      have hfull : (⟨(productCode s).toList.take 2⟩ : String) = productCode s := by
        rw [List.take_of_length_le hlen]
        rfl
      cases h3 : List.lookup (⟨(productCode s).toList.take 2⟩ : String)
          FUTURE_EXCHANGE_MAP with
      | some ex =>
        rw [hfull, h1] at h3
        exact Option.noConfusion h3
      | none =>
        cases List.lookup (⟨(productCode s).toList.take 1⟩ : String)
            FUTURE_EXCHANGE_MAP <;> rfl

/-- Counterexample to C8 as stated: `calculate_ma` on an empty bar series
does not raise a data error — it returns the empty derived column. -/
theorem c8_counterexample :
    TechnicalCalculator.calculate_ma [] 20 = Except.ok []
    ∧ ¬ ∃ e, TechnicalCalculator.calculate_ma [] 20 = Except.error e := by
  refine ⟨rfl, ?_⟩
  rintro ⟨e, h⟩
  exact Except.noConfusion h

/-- C8 amended: every indicator calculator (moving average, ATR, MACD,
RSI, Bollinger Bands, volume MA) and `calculate_all`, applied to an empty
bar series, silently succeeds with empty (zero-row) derived columns
instead of raising a data error. -/
theorem c8_empty_series_silent :
    ∀ (w fast slow sig : ℕ) (k : ℝ),
      TechnicalCalculator.calculate_ma [] w = Except.ok []
      ∧ TechnicalCalculator.calculate_atr [] w = Except.ok []
      ∧ TechnicalCalculator.calculate_macd [] fast slow sig = Except.ok ([], [], [])
      ∧ TechnicalCalculator.calculate_rsi [] w = Except.ok []
      ∧ TechnicalCalculator.calculate_bollinger_bands [] w k = Except.ok ([], [], [])
      ∧ TechnicalCalculator.calculate_volume_ma [] w = Except.ok []
      ∧ TechnicalCalculator.calculate_all [] =
          Except.ok ⟨[], [], [], [], [], [], [], [], [], [], [], []⟩ :=
  fun _ _ _ _ _ => ⟨rfl, rfl, rfl, rfl, rfl, rfl, rfl⟩

namespace TechnicalCalculator

theorem zipWith_nonneg {f : ℚ → ℚ → ℚ} (hf : ∀ a b, 0 ≤ f a b) :
    ∀ (l₁ l₂ : List ℚ) (x : ℚ), x ∈ List.zipWith f l₁ l₂ → 0 ≤ x := by
  intro l₁
  induction l₁ with
  | nil => intro l₂ x hx; simp [List.zipWith] at hx
  | cons a t ih =>
    intro l₂ x hx
    cases l₂ with
    | nil => simp [List.zipWith] at hx
    | cons b u =>
      simp only [List.zipWith, List.mem_cons] at hx
      rcases hx with rfl | hx
      · exact hf a b
      · exact ih u x hx

theorem gainList_nonneg (xs : List ℚ) : ∀ x ∈ gainList xs, 0 ≤ x := by
  cases xs with
  | nil => simp [gainList]
  | cons a t =>
    intro x hx
    simp only [gainList, List.mem_cons] at hx
    rcases hx with rfl | hx
    · exact le_refl 0
    · exact zipWith_nonneg (fun p c => le_max_right _ _) _ _ x hx

theorem lossList_nonneg (xs : List ℚ) : ∀ x ∈ lossList xs, 0 ≤ x := by
  cases xs with
  | nil => simp [lossList]
  | cons a t =>
    intro x hx
    simp only [lossList, List.mem_cons] at hx
    rcases hx with rfl | hx
    · exact le_refl 0
    · exact zipWith_nonneg (fun p c => le_max_right _ _) _ _ x hx

theorem getD_nonneg {xs : List ℚ} (h : ∀ x ∈ xs, 0 ≤ x) (n : ℕ) :
    0 ≤ xs.getD n 0 := by
  rcases h' : xs[n]? with _ | y
  · simp [List.getD, h']
  · have hg : xs.get? n = some y := by rw [List.get?_eq_getElem?, h']
    have hy := h y (List.get?_mem hg)
    simp [List.getD, h', hy]

theorem winSum_nonneg {xs : List ℚ} (h : ∀ x ∈ xs, 0 ≤ x) (w i : ℕ) :
    0 ≤ winSum xs w i := by
  unfold winSum
  apply List.sum_nonneg
  intro x hx
  simp only [List.mem_map] at hx
  obtain ⟨j, _, rfl⟩ := hx
  exact getD_nonneg h _

theorem rollAt_nonneg {xs : List ℚ} (h : ∀ x ∈ xs, 0 ≤ x) {w i : ℕ} {v : ℚ}
    (hv : rollAt w xs i = some v) : 0 ≤ v := by
  unfold rollAt at hv
  split at hv
  · injection hv with h'
    subst h'
    exact div_nonneg (winSum_nonneg h w i) (by positivity)
  · exact Option.noConfusion hv

theorem rsiAt_bounds {xs : List ℚ} {w i : ℕ} {v : ℚ} (h : rsiAt xs w i = some v) :
    0 ≤ v ∧ v ≤ 100 := by
  unfold rsiAt at h
  cases hg : rollAt w (gainList xs) i with
  | none =>
    simp only [hg] at h
    exact Option.noConfusion h
  | some gv =>
    cases hl : rollAt w (lossList xs) i with
    | none =>
      simp only [hg, hl] at h
      exact Option.noConfusion h
    | some lv =>
      simp only [hg, hl] at h
      have hgv : 0 ≤ gv := rollAt_nonneg (gainList_nonneg xs) hg
      have hlv : 0 ≤ lv := rollAt_nonneg (lossList_nonneg xs) hl
      by_cases h0 : lv = 0
      · rw [if_pos h0] at h
        by_cases hg0 : gv = 0
        · rw [if_pos hg0] at h
          exact Option.noConfusion h
        · rw [if_neg hg0] at h
          injection h with h'
          subst h'
          constructor <;> norm_num
      · rw [if_neg h0] at h
        injection h with h'
        subst h'
        have hlv' : 0 < lv := lt_of_le_of_ne hlv (Ne.symm h0)
        have hrs : 0 ≤ gv / lv := div_nonneg hgv hlv'.le
        have hd : (1 : ℚ) ≤ 1 + gv / lv := by linarith
        have hub : 100 / (1 + gv / lv) ≤ 100 := div_le_self (by norm_num) hd
        have hlb : 0 ≤ 100 / (1 + gv / lv) := div_nonneg (by norm_num) (by linarith)
        constructor <;> linarith

end TechnicalCalculator

/-- C7: every defined value of the column produced by `calculate_rsi`
lies in [0, 100], and at every row where the Bollinger columns are
defined (for a non-negative band width, 2.0 in every call in the source)
the upper band is at least the mid band, which is at least the lower
band. -/
theorem c7_rsi_bollinger :
    (∀ xs w col v, TechnicalCalculator.calculate_rsi xs w = Except.ok col →
      some v ∈ col → 0 ≤ v ∧ v ≤ 100)
    ∧ (∀ (xs : List ℚ) (w : ℕ) (k : ℝ) (i : ℕ), 0 ≤ k →
      (TechnicalCalculator.varAt w xs i).isSome = true →
      ∃ m u l, TechnicalCalculator.rollAt w xs i = some m
        ∧ TechnicalCalculator.bbUpperAt xs w k i = some u
        ∧ TechnicalCalculator.bbLowerAt xs w k i = some l
        ∧ l ≤ (m : ℝ) ∧ (m : ℝ) ≤ u) := by
  constructor
  · intro xs w col v hok hmem
    have hcol : col = (List.range xs.length).map (TechnicalCalculator.rsiAt xs w) :=
      (Except.ok.inj hok).symm
    subst hcol
    obtain ⟨i, _, hi⟩ := List.mem_map.mp hmem
    exact TechnicalCalculator.rsiAt_bounds hi
  · intro xs w k i hk hv
    obtain ⟨vq, hvar⟩ := Option.isSome_iff_exists.mp hv
    have hcond : 2 ≤ w ∧ w ≤ i + 1 ∧ i < xs.length := by
      by_contra hc
      unfold TechnicalCalculator.varAt at hvar
      rw [if_neg hc] at hvar
      exact Option.noConfusion hvar
    have hroll : TechnicalCalculator.rollAt w xs i
        = some (TechnicalCalculator.winSum xs w i / w) := by
      unfold TechnicalCalculator.rollAt
      rw [if_pos ⟨by omega, hcond.2.1, hcond.2.2⟩]
    have hsq : (0 : ℝ) ≤ Real.sqrt (vq : ℝ) * k :=
      mul_nonneg (Real.sqrt_nonneg _) hk
    refine ⟨TechnicalCalculator.winSum xs w i / w,
            ((TechnicalCalculator.winSum xs w i / w : ℚ) : ℝ) + Real.sqrt (vq : ℝ) * k,
            ((TechnicalCalculator.winSum xs w i / w : ℚ) : ℝ) - Real.sqrt (vq : ℝ) * k,
            hroll, ?_, ?_, by linarith, by linarith⟩
    · unfold TechnicalCalculator.bbUpperAt
      simp only [hroll, hvar]
    · unfold TechnicalCalculator.bbLowerAt
      simp only [hroll, hvar]

/-- Witness for C7: the RSI bound applied to the defined value 100 of
the column over the series [1, 2] with window 1, and the band ordering
applied over the series [1, 3] with window 2 and width 2 at row 1. -/
theorem c7_witness :
    ((0 : ℚ) ≤ 100 ∧ (100 : ℚ) ≤ 100)
    ∧ ∃ m u l, TechnicalCalculator.rollAt 2 [1, 3] 1 = some m
        ∧ TechnicalCalculator.bbUpperAt [1, 3] 2 2 1 = some u
        ∧ TechnicalCalculator.bbLowerAt [1, 3] 2 2 1 = some l
        ∧ l ≤ (m : ℝ) ∧ (m : ℝ) ≤ u :=
  ⟨c7_rsi_bollinger.1 [1, 2] 1 [none, some 100] 100 (by
      norm_num [TechnicalCalculator.calculate_rsi, TechnicalCalculator.rsiAt,
        TechnicalCalculator.rollAt, TechnicalCalculator.gainList,
        TechnicalCalculator.lossList, TechnicalCalculator.winSum, List.range_succ])
    (by simp),
   c7_rsi_bollinger.2 [1, 3] 2 2 1 (by norm_num) (by decide)⟩

namespace ModelManager

theorem countActive_cons (a : AIModel) (l : List AIModel) :
    countActive (a :: l) = (if a.is_active = true then 1 else 0) + countActive l := by
  by_cases h : a.is_active = true <;>
    simp [countActive, List.filter_cons, h, Nat.add_comm]

theorem countActive_append (l₁ l₂ : List AIModel) :
    countActive (l₁ ++ l₂) = countActive l₁ + countActive l₂ := by
  simp [countActive, List.filter_append]

theorem countActive_filter_le (p : AIModel → Bool) (l : List AIModel) :
    countActive (l.filter p) ≤ countActive l := by
  simpa [countActive] using
    List.Sublist.length_le
      (List.Sublist.filter (fun m => m.is_active) (List.filter_sublist l))

theorem countActive_map_le (f : AIModel → AIModel)
    (hf : ∀ x, (f x).is_active = true → x.is_active = true) (l : List AIModel) :
    countActive (l.map f) ≤ countActive l := by
  induction l with
  | nil => simp [countActive]
  | cons a t ih =>
    simp only [List.map_cons]
    rw [countActive_cons, countActive_cons]
    by_cases h : (f a).is_active = true
    · rw [if_pos h, if_pos (hf a h)]
      omega
    · rw [if_neg h]
      by_cases h' : a.is_active = true
      · rw [if_pos h']; omega
      · rw [if_neg h']; omega

theorem countActive_zero_of_no_match (t : List AIModel) (mid : String)
    (g : AIModel → AIModel) (hnone : ∀ x ∈ t, ¬ x.id = mid) :
    countActive (t.map (fun x =>
      if x.id = mid then g x else { x with is_active := false })) = 0 := by
  induction t with
  | nil => simp [countActive]
  | cons a s ih =>
    have ha : ¬ a.id = mid := hnone a (List.mem_cons_self a s)
    simp only [List.map_cons]
    rw [countActive_cons, if_neg ha]
    simp only [if_neg (by simp : ¬ ({ a with is_active := false } : AIModel).is_active = true)]
    rw [Nat.zero_add]
    exact ih (fun x hx => hnone x (List.mem_cons_of_mem a hx))

theorem countActive_ite_le_one (l : List AIModel) (mid : String)
    (g : AIModel → AIModel) (hnd : (l.map (·.id)).Nodup) :
    countActive (l.map (fun x =>
      if x.id = mid then g x else { x with is_active := false })) ≤ 1 := by
  induction l with
  | nil => simp [countActive]
  | cons a t ih =>
    simp only [List.map_cons] at hnd
    obtain ⟨hna, hnt⟩ := List.nodup_cons.mp hnd
    simp only [List.map_cons]
    rw [countActive_cons]
    by_cases ha : a.id = mid
    · rw [if_pos ha]
      have hzero : countActive (t.map (fun x =>
          if x.id = mid then g x else { x with is_active := false })) = 0 := by
        apply countActive_zero_of_no_match
        intro x hx hxid
        exact hna (by
          rw [← ha] at hxid
          exact List.mem_map.mpr ⟨x, hx, hxid.symm ▸ rfl⟩)
      rw [hzero]
      split <;> omega
    · rw [if_neg ha]
      simp only [if_neg (by simp : ¬ ({ a with is_active := false } : AIModel).is_active = true)]
      simpa using ih hnt

theorem active_elem_eq {l : List AIModel} (h1 : countActive l ≤ 1)
    {a b : AIModel} (ha : a ∈ l) (hb : b ∈ l)
    (haa : a.is_active = true) (hba : b.is_active = true) : a = b := by
  have ha' : a ∈ l.filter (fun m => m.is_active) := List.mem_filter.mpr ⟨ha, haa⟩
  have hb' : b ∈ l.filter (fun m => m.is_active) := List.mem_filter.mpr ⟨hb, hba⟩
  rcases hf : l.filter (fun m => m.is_active) with _ | ⟨x, rest⟩
  · rw [hf] at ha'
    exact absurd ha' (List.not_mem_nil a)
  · have hrest : rest = [] := by
      have hlen : (x :: rest).length ≤ 1 := by
        have := h1
        rw [countActive, hf] at this
        exact this
      simp only [List.length_cons] at hlen
      exact List.length_eq_zero.mp (by omega)
    subst hrest
    rw [hf] at ha' hb'
    simp only [List.mem_singleton] at ha' hb'
    rw [ha', hb']

theorem ids_map_preserved (st : List AIModel) (f : AIModel → AIModel)
    (hf : ∀ x ∈ st, (f x).id = x.id) :
    (st.map f).map (·.id) = st.map (·.id) := by
  rw [List.map_map]
  exact List.map_congr_left hf

theorem add_model_inv (st : List AIModel) (m : AIModel)
    (hnd : idsNodup st) (h1 : atMostOneActive st) (hm : m.is_active = false) :
    idsNodup (add_model st m) ∧ atMostOneActive (add_model st m) := by
  unfold add_model
  by_cases hc : (st.map (·.id)).contains m.id
  · rw [if_pos hc]
    exact ⟨hnd, h1⟩
  · rw [if_neg hc]
    by_cases he : st = []
    · subst he
      rw [if_pos rfl]
      refine ⟨by simp [idsNodup], ?_⟩
      simp [atMostOneActive, countActive, List.filter_cons]
    · rw [if_neg he]
      have hmem : m.id ∉ st.map (·.id) := by
        intro hmm
        exact hc (List.elem_eq_true_of_mem hmm)
      constructor
      · unfold idsNodup
        rw [List.map_append]
        simp only [List.map_cons, List.map_nil]
        rw [List.nodup_append]
        exact ⟨hnd, List.nodup_singleton _, by simpa using hmem⟩
      · unfold atMostOneActive
        rw [countActive_append]
        have hz : countActive [m] = 0 := by
          simp [countActive, List.filter_cons, hm]
        rw [hz]
        simpa using h1

theorem update_model_inv (st : List AIModel) (mid : String) (u : AIModel)
    (hnd : idsNodup st) (h1 : atMostOneActive st) :
    idsNodup (update_model st mid u) ∧ atMostOneActive (update_model st mid u) := by
  simp only [update_model]
  split
  case isFalse => exact ⟨hnd, h1⟩
  case isTrue hmem =>
    split
    case isTrue hact =>
      constructor
      · unfold idsNodup
        rw [ids_map_preserved]
        · exact hnd
        · intro x _
          by_cases h : x.id = mid <;> simp [h]
      · exact countActive_ite_le_one st mid (fun _ => { u with id := mid }) hnd
    case isFalse hact =>
      constructor
      · unfold idsNodup
        rw [ids_map_preserved]
        · exact hnd
        · intro x _
          by_cases h : x.id = mid <;> simp [h]
      · refine le_trans (countActive_map_le _ ?_ st) h1
        intro x hx
        by_cases h : x.id = mid
        · rw [if_pos h] at hx
          exact absurd hx hact
        · rwa [if_neg h] at hx

theorem set_active_model_inv (st : List AIModel) (mid : String)
    (hnd : idsNodup st) (h1 : atMostOneActive st) :
    idsNodup (set_active_model st mid)
    ∧ atMostOneActive (set_active_model st mid) := by
  simp only [set_active_model]
  split
  case isFalse => exact ⟨hnd, h1⟩
  case isTrue hmem =>
    constructor
    · unfold idsNodup
      rw [ids_map_preserved]
      · exact hnd
      · intro x _
        by_cases h : x.id = mid <;> simp [h]
    · exact countActive_ite_le_one st mid (fun x => { x with is_active := true }) hnd

theorem idsNodup_filter (st : List AIModel) (p : AIModel → Bool)
    (hnd : idsNodup st) : idsNodup (st.filter p) :=
  List.Nodup.sublist (List.Sublist.map _ (List.filter_sublist st)) hnd

theorem delete_model_inv (st : List AIModel) (mid : String)
    (hnd : idsNodup st) (h1 : atMostOneActive st) :
    idsNodup (delete_model st mid) ∧ atMostOneActive (delete_model st mid) := by
  simp only [delete_model]
  split
  case isFalse => exact ⟨hnd, h1⟩
  case isTrue hmem =>
    split
    case isFalse hcond =>
      exact ⟨idsNodup_filter st _ hnd, le_trans (countActive_filter_le _ st) h1⟩
    case isTrue hcond =>
      cases st with
      | nil => simp at hcond
      | cons a xs =>
        show idsNodup ((if a.id = mid then a :: xs
              else { a with is_active := true } :: xs).filter (fun x => !(x.id == mid)))
          ∧ atMostOneActive ((if a.id = mid then a :: xs
              else { a with is_active := true } :: xs).filter (fun x => !(x.id == mid)))
        by_cases ha : a.id = mid
        · rw [if_pos ha]
          exact ⟨idsNodup_filter (a :: xs) _ hnd,
                 le_trans (countActive_filter_le _ (a :: xs)) h1⟩
        · rw [if_neg ha]
          have hpa : (!(({ a with is_active := true } : AIModel).id == mid)) = true := by
            simp [ha]
          rw [List.filter_cons, if_pos hpa]
          obtain ⟨hcond1, _⟩ := hcond
          constructor
          · simp only [idsNodup, List.map_cons]
            simp only [idsNodup, List.map_cons] at hnd
            obtain ⟨hna, hnxs⟩ := List.nodup_cons.mp hnd
            refine List.nodup_cons.mpr ⟨?_, ?_⟩
            · intro hin
              exact hna ((List.Sublist.map (·.id) (List.filter_sublist xs)).subset hin)
            · exact List.Nodup.sublist (List.Sublist.map _ (List.filter_sublist xs)) hnxs
          · unfold atMostOneActive
            rw [countActive_cons]
            have hz : countActive (xs.filter (fun x => !(x.id == mid))) = 0 := by
              by_contra hpos
              have hlp : 0 < ((xs.filter (fun x => !(x.id == mid))).filter
                  (fun m => m.is_active)).length := Nat.pos_of_ne_zero hpos
              obtain ⟨y, hy⟩ := List.exists_mem_of_length_pos hlp
              have hy1 := List.mem_filter.mp hy
              have hy2 := List.mem_filter.mp hy1.1
              have hyid : ¬ y.id = mid := by simpa using hy2.2
              cases hfind : (a :: xs).find? (fun x => x.id == mid) with
              | none => rw [hfind] at hcond1; simp at hcond1
              | some e =>
                rw [hfind] at hcond1
                have hact : e.is_active = true := by simpa using hcond1
                have he_mem : e ∈ a :: xs := List.mem_of_find?_eq_some hfind
                have he_id : e.id = mid := by
                  have := List.find?_some hfind
                  simpa using this
                have hy_mem : y ∈ a :: xs := List.mem_cons_of_mem a hy2.1
                have hey : e = y := active_elem_eq h1 he_mem hy_mem hact hy1.2
                exact hyid (hey ▸ he_id)
            rw [hz]
            simp

theorem applyOp_inv (st : List AIModel) (op : Op)
    (hnd : idsNodup st) (h1 : atMostOneActive st) (hop : addsInactive op) :
    idsNodup (applyOp st op) ∧ atMostOneActive (applyOp st op) := by
  cases op with
  | add m => exact add_model_inv st m hnd h1 hop
  | update mid u => exact update_model_inv st mid u hnd h1
  | del mid => exact delete_model_inv st mid hnd h1
  | setActive mid => exact set_active_model_inv st mid hnd h1

end ModelManager

/-- Counterexample to C6 as stated: starting from a registry holding one
active model (an invariant-satisfying state), a single `add_model` call
whose argument already carries `is_active = true` produces two stored
active models — `add_model` clears nobody. -/
theorem c6_counterexample :
    ModelManager.atMostOneActive [⟨"m1", "", "", "", "", none, none, true⟩]
    ∧ ¬ ModelManager.atMostOneActive
        (ModelManager.applyOp [⟨"m1", "", "", "", "", none, none, true⟩]
          (ModelManager.Op.add ⟨"m2", "", "", "", "", none, none, true⟩)) := by
  constructor
  · unfold ModelManager.atMostOneActive ModelManager.countActive
    decide
  · unfold ModelManager.atMostOneActive ModelManager.countActive
    decide

/-- C6 amended: from any registry state with distinct ids and at most one
active model, any sequence of `update_model`, `delete_model`,
`set_active_model` calls and of `add_model` calls whose argument has a
cleared `is_active` flag (as the management UI always passes) preserves
"at most one stored model is active".  Unrestricted `add_model` breaks
the invariant, as the counterexample shows. -/
theorem c6_registry_at_most_one_active :
    ∀ (ops : List ModelManager.Op) (st : List AIModel),
      ModelManager.idsNodup st → ModelManager.atMostOneActive st →
      (∀ op ∈ ops, ModelManager.addsInactive op) →
      ModelManager.atMostOneActive (ops.foldl ModelManager.applyOp st) := by
  intro ops
  induction ops with
  | nil =>
    intro st _ h1 _
    simpa using h1
  | cons op rest ih =>
    intro st hnd h1 hgood
    rw [List.foldl_cons]
    have hstep := ModelManager.applyOp_inv st op hnd h1
      (hgood op (List.mem_cons_self op rest))
    exact ih _ hstep.1 hstep.2 (fun o ho => hgood o (List.mem_cons_of_mem op ho))

/-- Witness for C6: the invariant theorem applied to a two-model registry
and the call sequence [set_active "m2", delete "m1"]. -/
theorem c6_registry_witness :
    ModelManager.atMostOneActive
      (([ModelManager.Op.setActive "m2", ModelManager.Op.del "m1"]).foldl
        ModelManager.applyOp
        [⟨"m1", "", "", "", "", none, none, true⟩,
         ⟨"m2", "", "", "", "", none, none, false⟩]) :=
  c6_registry_at_most_one_active _ _
    (by unfold ModelManager.idsNodup; decide)
    (by unfold ModelManager.atMostOneActive ModelManager.countActive; decide)
    (by
      intro o ho
      rcases List.mem_cons.mp ho with rfl | ho'
      · trivial
      · rcases List.mem_singleton.mp ho' with rfl
        trivial)

theorem walkAux_queried (select : Int → List (String × DataFrame) → Option DataFrame)
    (api : Int → Except Unit (List (String × DataFrame))) (c : Int) :
    ∀ (os : List Nat) (d : Int), d ∈ (walkAux select api c os).2 →
      (∃ o, o ∈ os ∧ d = c - (o : Int)) ∧ isWeekend d = false := by
  intro os
  induction os with
  | nil =>
    intro d hd
    simp [walkAux] at hd
  | cons o rest ih =>
    intro d hd
    by_cases hw : isWeekend (c - (o : Int)) = true
    · rw [show walkAux select api c (o :: rest) = walkAux select api c rest by
        simp [walkAux, hw]] at hd
      obtain ⟨⟨o', ho', rfl⟩, hnw⟩ := ih d hd
      exact ⟨⟨o', List.mem_cons_of_mem _ ho', rfl⟩, hnw⟩
    · have hw' : isWeekend (c - (o : Int)) = false := by simpa using hw
      have tail_case :
          d ∈ (c - (o : Int)) :: (walkAux select api c rest).2 →
          (∃ o', o' ∈ o :: rest ∧ d = c - (o' : Int)) ∧ isWeekend d = false := by
        intro hd'
        rcases List.mem_cons.mp hd' with rfl | hd''
        · exact ⟨⟨o, List.mem_cons_self o rest, rfl⟩, hw'⟩
        · obtain ⟨⟨o', ho', rfl⟩, hnw⟩ := ih d hd''
          exact ⟨⟨o', List.mem_cons_of_mem _ ho', rfl⟩, hnw⟩
      cases hapi : api (c - (o : Int)) with
      | error e =>
        rw [show (walkAux select api c (o :: rest)).2
            = (c - (o : Int)) :: (walkAux select api c rest).2 by
          simp [walkAux, hw, hapi]] at hd
        exact tail_case hd
      | ok dict =>
        by_cases hdq : dict = []
        · rw [show (walkAux select api c (o :: rest)).2
              = (c - (o : Int)) :: (walkAux select api c rest).2 by
            simp [walkAux, hw, hapi, hdq]] at hd
          exact tail_case hd
        · cases hsel : select (c - (o : Int)) dict with
          | some df =>
            rw [show (walkAux select api c (o :: rest)).2 = [c - (o : Int)] by
              simp [walkAux, hw, hapi, hdq, hsel]] at hd
            rcases List.mem_singleton.mp hd with rfl
            exact ⟨⟨o, List.mem_cons_self o rest, rfl⟩, hw'⟩
          | none =>
            rw [show (walkAux select api c (o :: rest)).2
                = (c - (o : Int)) :: (walkAux select api c rest).2 by
              simp [walkAux, hw, hapi, hdq, hsel]] at hd
            exact tail_case hd

theorem walkAux_head_queried (select : Int → List (String × DataFrame) → Option DataFrame)
    (api : Int → Except Unit (List (String × DataFrame))) (c : Int)
    (o : Nat) (rest : List Nat) (hw : isWeekend (c - (o : Int)) = false) :
    c - (o : Int) ∈ (walkAux select api c (o :: rest)).2 := by
  cases hapi : api (c - (o : Int)) with
  | error e => simp [walkAux, hw, hapi]
  | ok dict =>
    by_cases hdq : dict = []
    · simp [walkAux, hw, hapi, hdq]
    · cases hsel : select (c - (o : Int)) dict with
      | some df => simp [walkAux, hw, hapi, hdq, hsel]
      | none => simp [walkAux, hw, hapi, hdq, hsel]

theorem walkAux_card_le (select : Int → List (String × DataFrame) → Option DataFrame)
    (api : Int → Except Unit (List (String × DataFrame))) (c : Int) (os : List Nat) :
    (walkAux select api c os).2.toFinset.card ≤ os.length := by
  have hsub : (walkAux select api c os).2.toFinset
      ⊆ (os.map (fun o : Nat => c - (o : Int))).toFinset := by
    intro d hd
    rw [List.mem_toFinset] at hd ⊢
    obtain ⟨⟨o, ho, rfl⟩, _⟩ := walkAux_queried select api c os _ hd
    exact List.mem_map.mpr ⟨o, ho, rfl⟩
  calc (walkAux select api c os).2.toFinset.card
      ≤ (os.map (fun o : Nat => c - (o : Int))).toFinset.card := Finset.card_le_card hsub
    _ ≤ (os.map (fun o : Nat => c - (o : Int))).length := List.toFinset_card_le _
    _ = os.length := List.length_map _ _

theorem walkAux_no_weekend (select : Int → List (String × DataFrame) → Option DataFrame)
    (api : Int → Except Unit (List (String × DataFrame))) (c : Int) (os : List Nat) :
    (walkAux select api c os).2.all (fun d => !isWeekend d) = true := by
  rw [List.all_eq_true]
  intro d hd
  have h := (walkAux_queried select api c os d hd).2
  simp [h]

theorem lookup_val {l : List (String × String)} {k v : String}
    (h : List.lookup k l = some v) : v ∈ l.map (·.2) := by
  induction l with
  | nil => simp [List.lookup] at h
  | cons p rest ih =>
    obtain ⟨k', v'⟩ := p
    by_cases hk : (k == k') = true
    · simp only [List.lookup, hk] at h
      injection h with h'
      subst h'
      exact List.mem_cons_self _ _
    · simp only [List.lookup, Bool.not_eq_true] at h
      rw [Bool.not_eq_true] at hk
      rw [hk] at h
      exact List.mem_cons_of_mem _ (ih h)

theorem map_values_five :
    ∀ v ∈ FUTURE_EXCHANGE_MAP.map (·.2),
      v = "SHFE" ∨ v = "DCE" ∨ v = "CZCE" ∨ v = "CFFEX" ∨ v = "GFEX" := by
  decide

theorem du_route_values (s ex : String)
    (h : DataUtils.get_exchange_by_symbol s = some ex) :
    ex = "SHFE" ∨ ex = "DCE" ∨ ex = "CZCE" ∨ ex = "CFFEX" ∨ ex = "GFEX" := by
  unfold DataUtils.get_exchange_by_symbol at h
  cases h1 : List.lookup (productCode s) FUTURE_EXCHANGE_MAP with
  | some e =>
    simp only [h1] at h
    injection h with h'
    subst h'
    exact map_values_five e (lookup_val h1)
  | none =>
    simp only [h1] at h
    by_cases h2 : 2 ≤ (productCode s).length
    · rw [if_pos h2] at h
      cases h3 : List.lookup (⟨(productCode s).toList.take 2⟩ : String)
          FUTURE_EXCHANGE_MAP with
      | some e =>
        simp only [h3] at h
        injection h with h'
        subst h'
        exact map_values_five e (lookup_val h3)
      | none =>
        simp only [h3] at h
        cases h4 : List.lookup (⟨(productCode s).toList.take 1⟩ : String)
            FUTURE_EXCHANGE_MAP with
        | some e =>
          simp only [h4] at h
          injection h with h'
          subst h'
          exact map_values_five e (lookup_val h4)
        | none =>
          simp only [h4] at h
          exact Option.noConfusion h
    · rw [if_neg h2] at h
      cases h4 : List.lookup (⟨(productCode s).toList.take 1⟩ : String)
          FUTURE_EXCHANGE_MAP with
      | some e =>
        simp only [h4] at h
        injection h with h'
        subst h'
        exact map_values_five e (lookup_val h4)
      | none =>
        simp only [h4] at h
        exact Option.noConfusion h

theorem dash_route_ok (s : String) :
    Dashboard.get_exchange_by_symbol s = "SHFE"
    ∨ Dashboard.get_exchange_by_symbol s = "DCE"
    ∨ Dashboard.get_exchange_by_symbol s = "CZCE"
    ∨ Dashboard.get_exchange_by_symbol s = "CFFEX"
    ∨ Dashboard.get_exchange_by_symbol s = "GFEX" := by
  unfold Dashboard.get_exchange_by_symbol
  cases h1 : (if 2 ≤ s.length
      then List.lookup (⟨(s.toList.take 2).map Char.toLower⟩ : String) FUTURE_EXCHANGE_MAP
      else none) with
  | some e =>
    have he : e ∈ FUTURE_EXCHANGE_MAP.map (·.2) := by
      by_cases h2 : 2 ≤ s.length
      · rw [if_pos h2] at h1
        exact lookup_val h1
      · rw [if_neg h2] at h1
        exact absurd h1 (Option.noConfusion)
    simpa using map_values_five e he
  | none =>
    cases h2 : (if 1 ≤ s.length
        then List.lookup (⟨(s.toList.take 1).map Char.toLower⟩ : String) FUTURE_EXCHANGE_MAP
        else none) with
    | some e =>
      have he : e ∈ FUTURE_EXCHANGE_MAP.map (·.2) := by
        by_cases h3 : 1 ≤ s.length
        · rw [if_pos h3] at h2
          exact lookup_val h2
        · rw [if_neg h3] at h2
          exact absurd h2 (Option.noConfusion)
      simpa using map_values_five e he
    | none => simp

theorem du_queried_cases (api : Int → Except Unit (List (String × DataFrame)))
    (symbol dataType : String) (c : Int) (t : Nat) :
    (DataUtils.get_holding_rank_data api symbol dataType c t).2 = []
    ∨ (DataUtils.get_holding_rank_data api symbol dataType c t).2
      = (walkAux (DataUtils.duSelect symbol) api c (List.range 30)).2 := by
  rcases hex : DataUtils.get_exchange_by_symbol symbol with _ | ex
  · unfold DataUtils.get_holding_rank_data
    simp only [hex]
    exact Or.inl trivial
  · unfold DataUtils.get_holding_rank_data
    simp only [hex]
    by_cases hc : ex = "SHFE" ∨ ex = "DCE" ∨ ex = "CZCE" ∨ ex = "CFFEX" ∨ ex = "GFEX"
    · rw [if_pos hc]
      refine Or.inr ?_
      split
      · rfl
      · split <;> rfl
    · rw [if_neg hc]
      simp

theorem du_queried_eq (api : Int → Except Unit (List (String × DataFrame)))
    (symbol dataType : String) (c : Int) (t : Nat) (ex : String)
    (hex : DataUtils.get_exchange_by_symbol symbol = some ex) :
    (DataUtils.get_holding_rank_data api symbol dataType c t).2
    = (walkAux (DataUtils.duSelect symbol) api c (List.range 30)).2 := by
  unfold DataUtils.get_holding_rank_data
  simp only [hex]
  rw [if_pos (du_route_values symbol ex hex)]
  split
  · rfl
  · split <;> rfl

theorem dash_queried_eq (api : Int → Except Unit (List (String × DataFrame)))
    (symbol dataType : String) (c : Int) (t : Nat) :
    (Dashboard.get_holding_rank_data api symbol dataType c t).2
    = (walkAux (Dashboard.dashSelect symbol) api c
        (List.range' (Dashboard.startDay t) (30 - Dashboard.startDay t))).2 := by
  unfold Dashboard.get_holding_rank_data
  rw [if_pos (dash_route_ok symbol)]
  split
  · rfl
  · split <;> rfl

/-- C4: in every execution of either `get_holding_rank_data`, the
backward day-walk queries the external endpoint on at most 30 distinct
calendar days, and no queried day is a Saturday or a Sunday. -/
theorem c4_day_walk_bounds :
    ∀ (api : Int → Except Unit (List (String × DataFrame)))
      (symbol dataType : String) (c : Int) (t : Nat),
      ((DataUtils.get_holding_rank_data api symbol dataType c t).2.toFinset.card ≤ 30
        ∧ (DataUtils.get_holding_rank_data api symbol dataType c t).2.all
            (fun d => !isWeekend d) = true)
      ∧ ((Dashboard.get_holding_rank_data api symbol dataType c t).2.toFinset.card ≤ 30
        ∧ (Dashboard.get_holding_rank_data api symbol dataType c t).2.all
            (fun d => !isWeekend d) = true) := by
  intro api symbol dataType c t
  constructor
  · rcases du_queried_cases api symbol dataType c t with h | h <;> rw [h]
    · simp
    · refine ⟨le_trans (walkAux_card_le _ _ _ _) ?_, walkAux_no_weekend _ _ _ _⟩
      simp
  · rw [dash_queried_eq api symbol dataType c t]
    refine ⟨le_trans (walkAux_card_le _ _ _ _) ?_, walkAux_no_weekend _ _ _ _⟩
    rw [List.length_range']
    omega

/-- Counterexample to C1 as stated: at 600 seconds past midnight — well
before the 16:30 cutoff — with today a Monday, the data_utils
implementation still queries today (day 0): its walk always starts at
offset 0, so the cutoff rule does not hold "in both duplicate
implementations". -/
theorem c1_counterexample :
    600 < Dashboard.cutoffSec
    ∧ isWeekend 0 = false
    ∧ (0 : Int) ∈ (DataUtils.get_holding_rank_data (fun _ => Except.error ())
        "TA2505" "多单持仓" 0 600).2 := by
  refine ⟨by decide, by decide, ?_⟩
  decide

/-- C1 amended: only the dashboard implementation derives its starting
offset from the 16:30 cutoff — before the cutoff it never queries today,
and from the cutoff on it queries today first (when today is a weekday);
the data_utils implementation ignores the time of day entirely and,
whenever its routing succeeds, queries today first regardless of the
cutoff. -/
theorem c1_start_offset :
    ∀ (api : Int → Except Unit (List (String × DataFrame)))
      (symbol dataType : String) (c : Int) (t : Nat),
      (t < Dashboard.cutoffSec →
        c ∉ (Dashboard.get_holding_rank_data api symbol dataType c t).2)
      ∧ (Dashboard.cutoffSec ≤ t → isWeekend c = false →
        c ∈ (Dashboard.get_holding_rank_data api symbol dataType c t).2)
      ∧ (∀ t' : Nat, DataUtils.get_holding_rank_data api symbol dataType c t
          = DataUtils.get_holding_rank_data api symbol dataType c t')
      ∧ (isWeekend c = false →
        (DataUtils.get_exchange_by_symbol symbol).isSome = true →
        c ∈ (DataUtils.get_holding_rank_data api symbol dataType c t).2) := by
  intro api symbol dataType c t
  refine ⟨?_, ?_, fun t' => rfl, ?_⟩
  · intro ht hmem
    rw [dash_queried_eq api symbol dataType c t] at hmem
    obtain ⟨⟨o, ho, heq⟩, _⟩ :=
      walkAux_queried (Dashboard.dashSelect symbol) api c _ c hmem
    have hstart : Dashboard.startDay t = 1 := by
      unfold Dashboard.startDay
      rw [if_pos ht]
    rw [hstart] at ho
    have hrange := List.mem_range'_1.mp ho
    omega
  · intro ht hweek
    rw [dash_queried_eq api symbol dataType c t]
    have hstart : Dashboard.startDay t = 0 := by
      unfold Dashboard.startDay
      rw [if_neg (not_lt.mpr ht)]
    rw [hstart]
    have hr : List.range' 0 (30 - 0) = 0 :: List.range' 1 29 := rfl
    rw [hr]
    have hq := walkAux_head_queried (Dashboard.dashSelect symbol) api c 0
      (List.range' 1 29) (by simpa using hweek)
    simpa using hq
  · intro hweek hroute
    obtain ⟨ex, hex⟩ := Option.isSome_iff_exists.mp hroute
    rw [du_queried_eq api symbol dataType c t ex hex]
    have hr : List.range 30 = 0 :: List.range' 1 29 := by
      rw [List.range_eq_range']
      rfl
    rw [hr]
    have hq := walkAux_head_queried (DataUtils.duSelect symbol) api c 0
      (List.range' 1 29) (by simpa using hweek)
    simpa using hq

/-- Witness for C1: the amended theorem applied at 600 seconds past
midnight on a Monday with an always-failing endpoint. -/
theorem c1_start_offset_witness :
    (0 : Int) ∉ (Dashboard.get_holding_rank_data (fun _ => Except.error ())
        "TA2505" "多单持仓" 0 600).2
    ∧ (0 : Int) ∈ (DataUtils.get_holding_rank_data (fun _ => Except.error ())
        "TA2505" "多单持仓" 0 600).2 :=
  ⟨(c1_start_offset (fun _ => Except.error ()) "TA2505" "多单持仓" 0 600).1
      (by decide),
   (c1_start_offset (fun _ => Except.error ()) "TA2505" "多单持仓" 0 600).2.2.2
      (by decide) (by decide)⟩

theorem finishRank_len (df : DataFrame) (sel : List String) (d : Int) :
    (finishRank df sel d).1.rows.length ≤ 20 := by
  show ((df.selectCols sel).rows.take 20).length ≤ 20
  rw [List.length_take]
  exact min_le_left _ _

theorem finishRank_rows_ne (df : DataFrame) (sel : List String) (d : Int)
    (h : df.rows ≠ []) : (finishRank df sel d).1.rows ≠ [] := by
  show (df.selectCols sel).rows.take 20 ≠ []
  simp [DataFrame.selectCols, h]

theorem duNormalize_ok (df : DataFrame) (d : Int) (dataType : String) :
    ((DataUtils.normalizeRank df d dataType).2.2 = none
      ∧ (DataUtils.normalizeRank df d dataType).1.cols = stdRankCols
      ∧ (DataUtils.normalizeRank df d dataType).1.rows.length ≤ 20
      ∧ (df.rows ≠ [] → (DataUtils.normalizeRank df d dataType).1.rows ≠ []))
    ∨ ((DataUtils.normalizeRank df d dataType).2.2 ≠ none
      ∧ (DataUtils.normalizeRank df d dataType).1 = DataFrame.emptyDF) := by
  unfold DataUtils.normalizeRank
  split_ifs
  all_goals first
    | exact Or.inl ⟨rfl, rfl, finishRank_len _ _ _, fun h => finishRank_rows_ne _ _ _ h⟩
    | exact Or.inr ⟨by simp, rfl⟩

theorem tryColumnSets_ok (df : DataFrame) (d : Int) (sets : List (List String))
    (errMsg : String) :
    ((Dashboard.tryColumnSets df d sets errMsg).2.2 = none
      ∧ (Dashboard.tryColumnSets df d sets errMsg).1.cols = stdRankCols
      ∧ (Dashboard.tryColumnSets df d sets errMsg).1.rows.length ≤ 20
      ∧ (df.rows ≠ [] → (Dashboard.tryColumnSets df d sets errMsg).1.rows ≠ []))
    ∨ ((Dashboard.tryColumnSets df d sets errMsg).2.2 ≠ none
      ∧ (Dashboard.tryColumnSets df d sets errMsg).1 = DataFrame.emptyDF) := by
  unfold Dashboard.tryColumnSets
  split
  · exact Or.inl ⟨rfl, rfl, finishRank_len _ _ _, fun h => finishRank_rows_ne _ _ _ h⟩
  · exact Or.inr ⟨by simp, rfl⟩

theorem dashNormalize_ok (df : DataFrame) (d : Int) (dataType : String) :
    ((Dashboard.dashNormalizeRank df d dataType).2.2 = none
      ∧ (Dashboard.dashNormalizeRank df d dataType).1.cols = stdRankCols
      ∧ (Dashboard.dashNormalizeRank df d dataType).1.rows.length ≤ 20
      ∧ (df.rows ≠ [] → (Dashboard.dashNormalizeRank df d dataType).1.rows ≠ []))
    ∨ ((Dashboard.dashNormalizeRank df d dataType).2.2 ≠ none
      ∧ (Dashboard.dashNormalizeRank df d dataType).1 = DataFrame.emptyDF) := by
  unfold Dashboard.dashNormalizeRank
  split_ifs
  all_goals first
    | exact Or.inl ⟨rfl, rfl, finishRank_len _ _ _, fun h => finishRank_rows_ne _ _ _ h⟩
    | exact Or.inr ⟨by simp, rfl⟩
    | exact tryColumnSets_ok _ _ _ _

/-- C2: neither implementation of `get_holding_rank_data` ever returns
both a non-empty table and a non-null error message: every returned
triple has a non-empty table with a null error, or the empty table with a
non-null error.  Both embeddings are total functions, so no exception
escapes to the caller. -/
theorem c2_table_error_exclusive :
    ∀ (api : Int → Except Unit (List (String × DataFrame)))
      (symbol dataType : String) (c : Int) (t : Nat),
      (((DataUtils.get_holding_rank_data api symbol dataType c t).1.1.isEmpty = false
          ∧ (DataUtils.get_holding_rank_data api symbol dataType c t).1.2.2 = none)
        ∨ ((DataUtils.get_holding_rank_data api symbol dataType c t).1.1 = DataFrame.emptyDF
          ∧ (DataUtils.get_holding_rank_data api symbol dataType c t).1.2.2 ≠ none))
      ∧ (((Dashboard.get_holding_rank_data api symbol dataType c t).1.1.isEmpty = false
          ∧ (Dashboard.get_holding_rank_data api symbol dataType c t).1.2.2 = none)
        ∨ ((Dashboard.get_holding_rank_data api symbol dataType c t).1.1 = DataFrame.emptyDF
          ∧ (Dashboard.get_holding_rank_data api symbol dataType c t).1.2.2 ≠ none)) := by
  intro api symbol dataType c t
  constructor
  · rcases hex : DataUtils.get_exchange_by_symbol symbol with _ | ex
    · unfold DataUtils.get_holding_rank_data
      simp only [hex]
      exact Or.inr (by constructor <;> simp)
    · unfold DataUtils.get_holding_rank_data
      simp only [hex]
      by_cases hc : ex = "SHFE" ∨ ex = "DCE" ∨ ex = "CZCE" ∨ ex = "CFFEX" ∨ ex = "GFEX"
      case neg =>
        rw [if_neg hc]
        exact Or.inr (by constructor <;> simp)
      case pos =>
      rw [if_pos hc]
      rcases hw : (walkAux (DataUtils.duSelect symbol) api c (List.range 30)).1
        with _ | ⟨df, d⟩
      · simp only [hw]
        exact Or.inr (by constructor <;> simp)
      · simp only [hw]
        by_cases he : df.isEmpty = true
        · rw [if_pos he]
          exact Or.inr (by constructor <;> simp)
        · rw [if_neg he]
          have hdfrows : df.rows ≠ [] := by
            intro hnil
            exact he (by simp [DataFrame.isEmpty, hnil])
          rcases duNormalize_ok df d dataType with ⟨he2, hc2, _, hne2⟩ | ⟨he2, hq2⟩
          · left
            refine ⟨?_, he2⟩
            have hrows := hne2 hdfrows
            simp [DataFrame.isEmpty, hc2, stdRankCols, hrows]
          · exact Or.inr ⟨hq2, he2⟩
  · unfold Dashboard.get_holding_rank_data
    rw [if_pos (dash_route_ok symbol)]
    rcases hw : (walkAux (Dashboard.dashSelect symbol) api c
        (List.range' (Dashboard.startDay t) (30 - Dashboard.startDay t))).1
      with _ | ⟨df, d⟩
    · simp only [hw]
      exact Or.inr (by constructor <;> simp)
    · simp only [hw]
      by_cases he : df.isEmpty = true
      · rw [if_pos he]
        exact Or.inr (by constructor <;> simp)
      · rw [if_neg he]
        have hdfrows : df.rows ≠ [] := by
          intro hnil
          exact he (by simp [DataFrame.isEmpty, hnil])
        rcases dashNormalize_ok df d dataType with ⟨he2, hc2, _, hne2⟩ | ⟨he2, hq2⟩
        · left
          refine ⟨?_, he2⟩
          have hrows := hne2 hdfrows
          simp [DataFrame.isEmpty, hc2, stdRankCols, hrows]
        · exact Or.inr ⟨hq2, he2⟩

/-- C3: whenever either implementation of `get_holding_rank_data`
succeeds (null error message), the returned table has exactly the four
columns 名次, 会员简称, 数值, 增减 and at most 20 rows. -/
theorem c3_success_table_shape :
    ∀ (api : Int → Except Unit (List (String × DataFrame)))
      (symbol dataType : String) (c : Int) (t : Nat),
      ((DataUtils.get_holding_rank_data api symbol dataType c t).1.2.2 = none →
        (DataUtils.get_holding_rank_data api symbol dataType c t).1.1.cols = stdRankCols
        ∧ (DataUtils.get_holding_rank_data api symbol dataType c t).1.1.rows.length ≤ 20)
      ∧ ((Dashboard.get_holding_rank_data api symbol dataType c t).1.2.2 = none →
        (Dashboard.get_holding_rank_data api symbol dataType c t).1.1.cols = stdRankCols
        ∧ (Dashboard.get_holding_rank_data api symbol dataType c t).1.1.rows.length ≤ 20) := by
  intro api symbol dataType c t
  constructor
  · rcases hex : DataUtils.get_exchange_by_symbol symbol with _ | ex
    · unfold DataUtils.get_holding_rank_data
      simp only [hex]
      intro h
      simp at h
    · unfold DataUtils.get_holding_rank_data
      simp only [hex]
      by_cases hc : ex = "SHFE" ∨ ex = "DCE" ∨ ex = "CZCE" ∨ ex = "CFFEX" ∨ ex = "GFEX"
      case neg =>
        rw [if_neg hc]
        intro h
        simp at h
      case pos =>
      rw [if_pos hc]
      rcases hw : (walkAux (DataUtils.duSelect symbol) api c (List.range 30)).1
        with _ | ⟨df, d⟩
      · simp only [hw]
        intro h
        simp at h
      · simp only [hw]
        by_cases he : df.isEmpty = true
        · rw [if_pos he]
          intro h
          simp at h
        · rw [if_neg he]
          intro h
          rcases duNormalize_ok df d dataType with ⟨_, hc2, hl2, _⟩ | ⟨he2, _⟩
          · exact ⟨hc2, hl2⟩
          · exact absurd h he2
  · unfold Dashboard.get_holding_rank_data
    rw [if_pos (dash_route_ok symbol)]
    rcases hw : (walkAux (Dashboard.dashSelect symbol) api c
        (List.range' (Dashboard.startDay t) (30 - Dashboard.startDay t))).1
      with _ | ⟨df, d⟩
    · simp only [hw]
      intro h
      simp at h
    · simp only [hw]
      by_cases he : df.isEmpty = true
      · rw [if_pos he]
        intro h
        simp at h
      · rw [if_neg he]
        intro h
        rcases dashNormalize_ok df d dataType with ⟨_, hc2, hl2, _⟩ | ⟨he2, _⟩
        · exact ⟨hc2, hl2⟩
        · exact absurd h he2

/-- Witness for C3: both success conclusions at a concrete endpoint that
returns a six-row long-position table for TA2505 on day 0 at 60000
seconds past midnight. -/
theorem c3_success_table_shape_witness :
    ((DataUtils.get_holding_rank_data
        (fun _ => Except.ok [("TA2505",
          ⟨["rank", "long_party_name", "long_open_interest", "long_open_interest_chg"],
           List.replicate 6 ["1", "x", "2", "3"]⟩)])
        "TA2505" "多单持仓" 0 60000).1.1.cols = stdRankCols
      ∧ (DataUtils.get_holding_rank_data
        (fun _ => Except.ok [("TA2505",
          ⟨["rank", "long_party_name", "long_open_interest", "long_open_interest_chg"],
           List.replicate 6 ["1", "x", "2", "3"]⟩)])
        "TA2505" "多单持仓" 0 60000).1.1.rows.length ≤ 20)
    ∧ ((Dashboard.get_holding_rank_data
        (fun _ => Except.ok [("TA2505",
          ⟨["rank", "long_party_name", "long_open_interest", "long_open_interest_chg"],
           List.replicate 6 ["1", "x", "2", "3"]⟩)])
        "TA2505" "多单持仓" 0 60000).1.1.cols = stdRankCols
      ∧ (Dashboard.get_holding_rank_data
        (fun _ => Except.ok [("TA2505",
          ⟨["rank", "long_party_name", "long_open_interest", "long_open_interest_chg"],
           List.replicate 6 ["1", "x", "2", "3"]⟩)])
        "TA2505" "多单持仓" 0 60000).1.1.rows.length ≤ 20) :=
  ⟨(c3_success_table_shape
      (fun _ => Except.ok [("TA2505",
        ⟨["rank", "long_party_name", "long_open_interest", "long_open_interest_chg"],
         List.replicate 6 ["1", "x", "2", "3"]⟩)])
      "TA2505" "多单持仓" 0 60000).1 (by decide),
   (c3_success_table_shape
      (fun _ => Except.ok [("TA2505",
        ⟨["rank", "long_party_name", "long_open_interest", "long_open_interest_chg"],
         List.replicate 6 ["1", "x", "2", "3"]⟩)])
      "TA2505" "多单持仓" 0 60000).2 (by decide)⟩
